import Mathlib

/-!
Verification of the KIEP analytics server (`src/mcp/kiep-analytics/server.py`).

The analytics derivation layer of the server is embedded shallowly:
each tool's pure core (scoring, ranking, matching, risk classification,
profile reshaping) becomes a Lean function over typed records, with the
remote fetches modelled as explicit inputs (`Option`-valued fetch results
or an oracle function).  Python floats are modelled as rationals (ℚ) and
Python ints as ℤ; Python's stable `sorted`/`list.sort` is modelled by a
stable insertion sort with the same key-based descending comparison.
-/

namespace KIEP

/-! ## Stable descending sort (model of Python `sorted(..., key=k, reverse=True)`)

Python's sort is stable.  `insertDesc` places the incoming element (which
occurs *earlier* in the input than everything already sorted, since
`sortDesc` recurses on the tail first) before the first element whose key
is ≤ its own, so equal-key elements keep input order. -/

def insertDesc (key : α → ℚ) (x : α) : List α → List α
  | [] => [x]
  | y :: ys => if key x < key y then y :: insertDesc key x ys else x :: y :: ys

def sortDesc (key : α → ℚ) : List α → List α
  | [] => []
  | x :: xs => insertDesc key x (sortDesc key xs)

theorem insertDesc_perm (key : α → ℚ) (x : α) (l : List α) :
    (insertDesc key x l).Perm (x :: l) := by
  induction l with
  | nil => simp [insertDesc]
  | cons y ys ih =>
    simp only [insertDesc]
    split
    · exact ((ih.cons y).trans (List.Perm.swap x y ys))
    · exact List.Perm.refl _

theorem sortDesc_perm (key : α → ℚ) (l : List α) : (sortDesc key l).Perm l := by
  induction l with
  | nil => simp [sortDesc]
  | cons x xs ih =>
    exact (insertDesc_perm key x (sortDesc key xs)).trans (ih.cons x)

theorem length_sortDesc (key : α → ℚ) (l : List α) :
    (sortDesc key l).length = l.length :=
  (sortDesc_perm key l).length_eq

/-- Descending order: every element is ≥ every later element (by key). -/
def SortedDescBy (key : α → ℚ) (l : List α) : Prop :=
  l.Pairwise (fun a b => key b ≤ key a)

theorem insertDesc_sorted (key : α → ℚ) (x : α) (l : List α)
    (h : SortedDescBy key l) : SortedDescBy key (insertDesc key x l) := by
  induction l with
  | nil => simp [insertDesc, SortedDescBy]
  | cons y ys ih =>
    simp only [insertDesc]
    rw [SortedDescBy, List.pairwise_cons] at h
    split
    · rename_i hlt
      refine List.Pairwise.cons ?_ (ih h.2)
      intro b hb
      have hperm := insertDesc_perm key x ys
      have hb' : b ∈ x :: ys := hperm.mem_iff.mp hb
      rcases List.mem_cons.mp hb' with rfl | hbys
      · exact le_of_lt hlt
      · exact h.1 b hbys
    · rename_i hge
      push_neg at hge
      refine List.Pairwise.cons ?_ (List.Pairwise.cons h.1 h.2)
      intro b hb
      rcases List.mem_cons.mp hb with rfl | hbys
      · exact hge
      · exact le_trans (h.1 b hbys) hge

theorem sortDesc_sorted (key : α → ℚ) (l : List α) :
    SortedDescBy key (sortDesc key l) := by
  induction l with
  | nil => simp [sortDesc, SortedDescBy]
  | cons x xs ih => exact insertDesc_sorted key x _ ih

/-- Stability, in filter form: for each key value `v`, the elements with key
`v` appear in the sorted output exactly as they appear in the input. -/
theorem insertDesc_filter_eq (key : α → ℚ) (x : α) (l : List α) (v : ℚ)
    (hx : key x = v) :
    (insertDesc key x l).filter (fun a => decide (key a = v)) =
      x :: l.filter (fun a => decide (key a = v)) := by
  induction l with
  | nil => simp [insertDesc, hx]
  | cons y ys ih =>
    simp only [insertDesc]
    split
    · rename_i hlt
      have hyv : ¬ (key y = v) := by
        intro h; rw [hx, ← h] at hlt; exact lt_irrefl _ hlt
      simp [List.filter_cons, hyv, ih]
    · simp [List.filter_cons, hx]

theorem insertDesc_filter_ne (key : α → ℚ) (x : α) (l : List α) (v : ℚ)
    (hx : ¬ key x = v) :
    (insertDesc key x l).filter (fun a => decide (key a = v)) =
      l.filter (fun a => decide (key a = v)) := by
  induction l with
  | nil => simp [insertDesc, hx]
  | cons y ys ih =>
    simp only [insertDesc]
    split
    · simp [List.filter_cons, ih]
    · simp [List.filter_cons, hx]

theorem sortDesc_filter_stable (key : α → ℚ) (l : List α) (v : ℚ) :
    (sortDesc key l).filter (fun a => decide (key a = v)) =
      l.filter (fun a => decide (key a = v)) := by
  induction l with
  | nil => simp [sortDesc]
  | cons x xs ih =>
    simp only [sortDesc]
    by_cases hx : key x = v
    · rw [insertDesc_filter_eq key x _ v hx, ih, List.filter_cons]
      simp [hx]
    · rw [insertDesc_filter_ne key x _ v hx, ih, List.filter_cons]
      simp [hx]

/-! ## Health Scorer (`get_region_health`, server.py lines 46–53)

The band expression on the fetched region's `health_score`. -/

def classifyHealth (score : ℚ) : String :=
  if score < 40 then "위험"
  else if score < 55 then "주의"
  else if score < 70 then "보통"
  else if score < 85 then "양호"
  else "우수"

/-! ## Risk Classifier (`predict_complex_risk`, server.py lines 247–306) -/

/-- A raw complex record as fetched (typed per the data model). -/
structure ComplexRec where
  id : String
  name : String
  tenant_count : ℤ
  operating_count : ℤ
  occupancy_rate : ℚ
  employment : ℤ
deriving DecidableEq, Repr

/-- Line 249: `tenant = cx.get("tenant_count", 0) or 1` — Python `or`
replaces a falsy (zero) count by 1. -/
def tenantDiv (cx : ComplexRec) : ℤ :=
  if cx.tenant_count = 0 then 1 else cx.tenant_count

/-- Line 254: `op_rate = (operating / tenant) * 100 if tenant > 0 else 0`. -/
def opRate (cx : ComplexRec) : ℚ :=
  if 0 < tenantDiv cx then ((cx.operating_count : ℚ) / (tenantDiv cx : ℚ)) * 100 else 0

/-- Lines 260–265: occupancy rule contribution. -/
def occPoints (cx : ComplexRec) : ℕ :=
  if cx.occupancy_rate < 70 then 30 else if cx.occupancy_rate < 85 then 15 else 0

/-- Lines 267–272: operating-rate rule contribution. -/
def opPoints (cx : ComplexRec) : ℕ :=
  if opRate cx < 60 then 30 else if opRate cx < 80 then 15 else 0

/-- Lines 274–276: employment rule contribution. -/
def empPoints (cx : ComplexRec) : ℕ :=
  if cx.employment < 1000 then 20 else 0

/-- Lines 257–276: `risk_score` accumulated over the three rules. -/
def riskScore (cx : ComplexRec) : ℕ :=
  occPoints cx + opPoints cx + empPoints cx

/-- Lines 278–282: the level thresholds on the accumulated score. -/
def riskLevel (s : ℕ) : String :=
  if 50 ≤ s then "높음" else if 25 ≤ s then "보통" else "낮음"

/-- Lines 260–276: the triggered factor strings, in rule order (occupancy,
then operating rate, then employment).  The Python code interpolates the
numeric value into each string for display; the label part is modelled. -/
def riskFactors (cx : ComplexRec) : List String :=
  (if cx.occupancy_rate < 70 then ["낮은 분양률"]
   else if cx.occupancy_rate < 85 then ["보통 분양률"] else [])
  ++ (if opRate cx < 60 then ["낮은 가동률"]
      else if opRate cx < 80 then ["보통 가동률"] else [])
  ++ (if cx.employment < 1000 then ["소규모 고용"] else [])

/-- Python `round(x, 1)`: banker's rounding of `10*x`, divided by 10. -/
def roundHalfEven (q : ℚ) : ℤ :=
  if q - ⌊q⌋ < 1/2 then ⌊q⌋
  else if 1/2 < q - ⌊q⌋ then ⌊q⌋ + 1
  else if 2 ∣ ⌊q⌋ then ⌊q⌋ else ⌊q⌋ + 1

def round1 (q : ℚ) : ℚ := (roundHalfEven (q * 10) : ℚ) / 10

/-- The per-complex metrics dict (lines 290–295). -/
structure RiskMetrics where
  occupancy_rate : ℚ
  operating_rate : ℚ
  tenant_count : ℤ
  employment : ℤ
deriving DecidableEq, Repr

/-- One entry of `risk_results` (lines 284–296). -/
structure RiskEntry where
  complex_code : String
  name : String
  risk_score : ℕ
  risk_level : String
  factors : List String
  metrics : RiskMetrics
deriving DecidableEq, Repr

def assessOne (cx : ComplexRec) : RiskEntry :=
  { complex_code := cx.id
  , name := cx.name
  , risk_score := riskScore cx
  , risk_level := riskLevel (riskScore cx)
  , factors := riskFactors cx
  , metrics :=
    { occupancy_rate := cx.occupancy_rate
    , operating_rate := round1 (opRate cx)
    , tenant_count := tenantDiv cx
    , employment := cx.employment } }

/-- The returned dict of `predict_complex_risk` (lines 298–306): the full
list is sorted descending by risk score (stably, Python `list.sort`),
the returned list is the top-20 slice, the counts are over the full list. -/
structure RiskReport where
  total_analyzed : ℕ
  high_risk_count : ℕ
  results : List RiskEntry
deriving Repr

def predictComplexRisk (complexes : List ComplexRec) : RiskReport :=
  let rr := sortDesc (fun r => (r.risk_score : ℚ)) (complexes.map assessOne)
  { total_analyzed := rr.length
  , high_risk_count := (rr.filter (fun r => r.risk_level = "높음")).length
  , results := rr.take 20 }

/-! ## Ranking Engine (`compare_regions`, server.py lines 84–119)

The per-code fetch results are the input (`none` = non-200 response,
dropped by the loop at lines 88–99).  A record is identified by its
position in the successfully-fetched list (`results`), mirroring Python
dict identity; the rank fields written into each dict become fields of
`RankedRegion`. -/

structure RegionRec where
  region_code : String
  name : String
  health_score : ℚ
  company_count : ℤ
  employee_count : ℤ
  growth_rate : ℚ
deriving DecidableEq, Repr

/-- The sort key used by the per-metric ranking loop (lines 109–113). -/
def metricKey (metric : String) (r : RegionRec) : ℚ :=
  if metric = "health_score" then r.health_score
  else if metric = "company_count" then (r.company_count : ℚ)
  else if metric = "employee_count" then (r.employee_count : ℚ)
  else r.growth_rate

/-- Line 105: `ranked = sorted(results, key=..health_score.., reverse=True)`,
with each record tagged by its original position. -/
def healthSorted (results : List RegionRec) : List (ℕ × RegionRec) :=
  sortDesc (fun p => p.2.health_score) results.enum

/-- Lines 110–113: the rank the metric loop writes into the record at
original position `i` — its position in the stable descending sort by
that metric, plus 1. -/
def metricRank (metric : String) (results : List RegionRec) (i : ℕ) : ℕ :=
  (sortDesc (fun p => metricKey metric p.2) results.enum).findIdx
    (fun p => p.1 == i) + 1

structure RankedRegion where
  region : RegionRec
  health_rank : ℕ
  health_score_rank : ℕ
  company_count_rank : ℕ
  employee_count_rank : ℕ
  growth_rate_rank : ℕ
deriving DecidableEq, Repr

/-- Lines 104–113: the `comparison` list — health-descending order, each
record annotated with the primary rank (its position, lines 106–107) and
the four per-metric ranks. -/
def comparisonOf (results : List RegionRec) : List RankedRegion :=
  (healthSorted results).enum.map (fun q =>
    { region := q.2.2
    , health_rank := q.1 + 1
    , health_score_rank := metricRank "health_score" results q.2.1
    , company_count_rank := metricRank "company_count" results q.2.1
    , employee_count_rank := metricRank "employee_count" results q.2.1
    , growth_rate_rank := metricRank "growth_rate" results q.2.1 })

inductive CompareOut where
  | error (msg : String)
  | ok (comparison : List RankedRegion) (count : ℕ) (best_health : String)
deriving DecidableEq, Repr

def compareRegions (fetches : List (Option RegionRec)) : CompareOut :=
  if 5 < fetches.length then CompareOut.error "최대 5개 지역까지 비교 가능합니다"
  else
    let results := fetches.filterMap id
    if results = [] then CompareOut.error "유효한 지역을 찾을 수 없습니다"
    else CompareOut.ok (comparisonOf results) (comparisonOf results).length
      (match comparisonOf results with
       | [] => ""
       | r :: _ => r.region.name)

/-! ## Cluster Matcher (`find_industry_cluster`, server.py lines 138–172) -/

structure Industry where
  name : String
  count : ℤ
deriving DecidableEq, Repr

structure ClusterRegion where
  code : String
  name : String
  province : String
  top_industries : List Industry
  employee_count : ℤ
  health_score : ℚ
deriving DecidableEq, Repr

/-- Does `hay` start with `needle`? -/
def prefMatch : List Char → List Char → Bool
  | [], _ => true
  | _ :: _, [] => false
  | a :: as, b :: bs => a == b && prefMatch as bs

/-- Does `needle` occur contiguously in `hay`?  (Python `needle in hay`.) -/
def subOccurs (needle : List Char) : List Char → Bool
  | [] => prefMatch needle []
  | c :: t => prefMatch needle (c :: t) || subOccurs needle t

/-- Python `keyword in name` on strings: case-sensitive, unanchored. -/
def strHasSub (hay needle : String) : Bool :=
  subOccurs needle.toList hay.toList

/-- Lines 147–151: scan `top_industries` in order, keep the first entry
whose name contains the keyword, stop there (`break`). -/
def firstMatch (keyword : String) : List Industry → Option Industry
  | [] => none
  | ind :: rest =>
    if strHasSub ind.name keyword then some ind else firstMatch keyword rest

structure ClusterEntry where
  region_code : String
  region_name : String
  province : String
  industry_name : String
  company_count : ℤ
  employee_count : ℤ
  health_score : ℚ
deriving DecidableEq, Repr

def regionEntry (region : ClusterRegion) (m : Industry) : ClusterEntry :=
  { region_code := region.code
  , region_name := region.name
  , province := region.province
  , industry_name := m.name
  , company_count := m.count
  , employee_count := region.employee_count
  , health_score := region.health_score }

/-- Lines 145–162: one pass over the regions; a region contributes its
first matching industry, retained when `count >= min_companies`. -/
def clustersOf (industry : String) (min_companies : ℤ)
    (regions : List ClusterRegion) : List ClusterEntry :=
  regions.filterMap (fun region =>
    match firstMatch industry region.top_industries with
    | none => none
    | some m =>
      if min_companies ≤ m.count then some (regionEntry region m) else none)

/-- Python `l[:n]` for a (possibly negative) int `n`. -/
def pySlice (n : ℤ) (l : List α) : List α :=
  if 0 ≤ n then l.take n.toNat else l.take (l.length - (-n).toNat)

structure ClusterOut where
  industry : String
  total_clusters : ℕ
  top_clusters : List ClusterEntry
deriving Repr

/-- Lines 164–172: sort matches descending by company count (stable,
`list.sort`), slice the top, report the untruncated total. -/
def findIndustryCluster (industry : String) (min_companies top_n : ℤ)
    (regions : List ClusterRegion) : ClusterOut :=
  let clusters := sortDesc (fun c => (c.company_count : ℚ))
    (clustersOf industry min_companies regions)
  { industry := industry
  , total_clusters := clusters.length
  , top_clusters := pySlice top_n clusters }

/-! ## Profile Assembler (`get_company_360`, server.py lines 187–215) -/

structure CompanyRec where
  name : String
  status : String
  industry_name : String
  address : String
  employee_count : ℤ
  employment_history : List (String × ℤ)
  financials : List String
  procurement_count : ℤ
  procurement_amount : ℚ
  recent_procurement : List String
  health_score : ℚ
  region_code : String
deriving DecidableEq, Repr

structure EmploymentView where
  current : ℤ
  history : List (String × ℤ)
deriving DecidableEq, Repr

structure ProcurementView where
  total_contracts : ℤ
  total_amount : ℚ
  recent : List String
deriving DecidableEq, Repr

structure Company360 where
  biz_no : String
  name : String
  status : String
  industry : String
  address : String
  employment : EmploymentView
  financials : List String
  procurement : ProcurementView
  health_score : ℚ
  region_code : String
deriving DecidableEq, Repr

/-- Line 187: `clean_biz = biz_no.replace("-", "")`. -/
def cleanBizNo (biz_no : String) : String :=
  String.mk (biz_no.toList.filter (fun c => c != '-'))

/-- Lines 197–215: the fixed-shape reshape of the fetched record. -/
def assembleProfile (clean : String) (c : CompanyRec) : Company360 :=
  { biz_no := clean
  , name := c.name
  , status := c.status
  , industry := c.industry_name
  , address := c.address
  , employment := { current := c.employee_count, history := c.employment_history }
  , financials := c.financials
  , procurement :=
    { total_contracts := c.procurement_count
    , total_amount := c.procurement_amount
    , recent := c.recent_procurement }
  , health_score := c.health_score
  , region_code := c.region_code }

inductive C360Out where
  | error (msg : String)
  | ok (profile : Company360)
deriving DecidableEq, Repr

/-- Lines 187–215: validate the normalized key length, then fetch by the
normalized key (`fetch` = the remote company lookup; `none` = 404). -/
def getCompany360 (biz_no : String) (fetch : String → Option CompanyRec) : C360Out :=
  if (cleanBizNo biz_no).length ≠ 10 then
    C360Out.error "사업자등록번호는 10자리여야 합니다"
  else
    match fetch (cleanBizNo biz_no) with
    | none => C360Out.error
        ("사업자등록번호 " ++ cleanBizNo biz_no ++ "에 해당하는 기업을 찾을 수 없습니다")
    | some c => C360Out.ok (assembleProfile (cleanBizNo biz_no) c)

/-! ## Shared helper lemmas and example records -/

/-- Rank of a risk level in the order low < moderate < high. -/
def levelRank (lv : String) : ℕ :=
  if lv = "높음" then 2 else if lv = "보통" then 1 else 0

/-- A complex with zero tenants but a positive operating count. -/
def cxZeroTenant : ComplexRec :=
  { id := "CPX-0", name := "공단0", tenant_count := 0, operating_count := 5
  , occupancy_rate := 90, employment := 1200 }

/-- The complex of spec Example 3. -/
def cxExample3 : ComplexRec :=
  { id := "CPX-3", name := "공단3", tenant_count := 10, operating_count := 5
  , occupancy_rate := 65, employment := 500 }

/-! ## Claim C1 -/

/-- Claim C1, counterexample: the claim says every complex with
`tenant_count = 0` gets `operating_rate = 0`, but the code floors the
divisor at 1, so a complex with `tenant_count = 0` and
`operating_count = 5` gets `op_rate = 5 / 1 * 100 = 500`, not 0. -/
theorem C1_zero_tenant_counterexample :
    cxZeroTenant.tenant_count = 0 ∧ opRate cxZeroTenant = 500 ∧
      ¬ opRate cxZeroTenant = 0 ∧
      (predictComplexRisk [cxZeroTenant]).results.map
        (fun r => r.metrics.operating_rate) = [500] := by
  have hop : opRate cxZeroTenant = 500 := by norm_num [opRate, tenantDiv, cxZeroTenant]
  refine ⟨rfl, hop, by norm_num [hop], ?_⟩
  simp [predictComplexRisk, sortDesc, insertDesc, assessOne, hop, round1, roundHalfEven]
  norm_num

/-- Claim C1 (amended): for every complex with `tenant_count = 0` the
divisor is floored at 1, so the derivation never divides by zero and the
derived `operating_rate` equals `operating_count * 100`; in particular it
is 0 exactly when `operating_count = 0`. -/
theorem C1_division_guard (cx : ComplexRec) (h : cx.tenant_count = 0) :
    tenantDiv cx = 1 ∧ ¬ tenantDiv cx = 0 ∧
      opRate cx = (cx.operating_count : ℚ) * 100 ∧
      (opRate cx = 0 ↔ cx.operating_count = 0) := by
  have ht : tenantDiv cx = 1 := by simp [tenantDiv, h]
  have hop : opRate cx = (cx.operating_count : ℚ) * 100 := by
    simp [opRate, ht]
  refine ⟨ht, by simp [ht], hop, ?_⟩
  rw [hop]
  constructor
  · intro h0
    rcases mul_eq_zero.mp h0 with h1 | h1
    · exact_mod_cast h1
    · norm_num at h1
  · intro h0
    rw [h0]; norm_num

/-- Witness for C1_division_guard at the concrete record `cxZeroTenant`. -/
theorem C1_division_guard_witness :
    tenantDiv cxZeroTenant = 1 ∧ ¬ tenantDiv cxZeroTenant = 0 ∧
      opRate cxZeroTenant = (cxZeroTenant.operating_count : ℚ) * 100 ∧
      (opRate cxZeroTenant = 0 ↔ cxZeroTenant.operating_count = 0) :=
  C1_division_guard cxZeroTenant rfl

/-! ## Claim C2 -/

/-- Claim C2: `classify_health` is total and assigns exactly one of the
five bands, partitioning the line with boundaries 40, 55, 70, 85 in the
upper band; 38 maps to "위험" and 85 to "우수". -/
theorem C2_classify_health_partition :
    (∀ s : ℚ,
      (classifyHealth s = "위험" ↔ s < 40) ∧
      (classifyHealth s = "주의" ↔ 40 ≤ s ∧ s < 55) ∧
      (classifyHealth s = "보통" ↔ 55 ≤ s ∧ s < 70) ∧
      (classifyHealth s = "양호" ↔ 70 ≤ s ∧ s < 85) ∧
      (classifyHealth s = "우수" ↔ 85 ≤ s)) ∧
    classifyHealth 38 = "위험" ∧ classifyHealth 85 = "우수" := by
  refine ⟨fun s => ?_, by norm_num [classifyHealth], by norm_num [classifyHealth]⟩
  unfold classifyHealth
  split_ifs with h1 h2 h3 h4 <;>
    refine ⟨?_, ?_, ?_, ?_, ?_⟩ <;>
    constructor <;>
    intro hh <;>
    first
      | rfl
      | linarith
      | (exact absurd hh (by decide))
      | (constructor <;> linarith)

/-! ## Claim C3 -/

/-- Claim C3: the risk score is the sum of the three independent rule
contributions (at most one factor per rule, so at most three factors),
always lies in [0, 80]; `risk_level` is a pure monotone function of the
score with thresholds 50 and 25; and on the Example-3 complex
(tenant 10, operating 5, occupancy 65, employment 500) the derivation
gives operating_rate 50, the three factors in rule order, score 80 and
the high level. -/
theorem C3_risk_score_level :
    (∀ cx : ComplexRec,
      riskScore cx = occPoints cx + opPoints cx + empPoints cx ∧
      riskScore cx ≤ 80 ∧ (riskFactors cx).length ≤ 3) ∧
    (∀ s t : ℕ, s ≤ t → levelRank (riskLevel s) ≤ levelRank (riskLevel t)) ∧
    (∀ s : ℕ,
      (riskLevel s = "높음" ↔ 50 ≤ s) ∧
      (riskLevel s = "보통" ↔ 25 ≤ s ∧ s < 50) ∧
      (riskLevel s = "낮음" ↔ s < 25)) ∧
    (opRate cxExample3 = 50 ∧ riskScore cxExample3 = 80 ∧
      riskLevel (riskScore cxExample3) = "높음" ∧
      riskFactors cxExample3 = ["낮은 분양률", "낮은 가동률", "소규모 고용"]) := by
  refine ⟨fun cx => ⟨rfl, ?_, ?_⟩, fun s t hst => ?_, fun s => ?_, ?_, ?_, ?_, ?_⟩
  · unfold riskScore occPoints opPoints empPoints
    split_ifs <;> norm_num
  · unfold riskFactors
    split_ifs <;> simp
  · have hlv : ∀ u : ℕ, levelRank (riskLevel u) =
        if 50 ≤ u then 2 else if 25 ≤ u then 1 else 0 := by
      intro u
      by_cases h50 : 50 ≤ u
      · simp [riskLevel, levelRank, h50]
      · by_cases h25 : 25 ≤ u
        · simp [riskLevel, levelRank, h50, h25]
        · simp [riskLevel, levelRank, h50, h25]
    rw [hlv s, hlv t]
    split_ifs <;> omega
  · unfold riskLevel
    split_ifs with ha hb <;>
      refine ⟨?_, ?_, ?_⟩ <;>
      constructor <;>
      intro hh <;>
      first
        | rfl
        | omega
        | (exact absurd hh (by decide))
  · norm_num [opRate, tenantDiv, cxExample3]
  · norm_num [riskScore, occPoints, opPoints, empPoints, opRate, tenantDiv, cxExample3]
  · norm_num [riskLevel, riskScore, occPoints, opPoints, empPoints, opRate, tenantDiv,
      cxExample3]
  · norm_num [riskFactors, opRate, tenantDiv, cxExample3]

/-- Witness for C3_risk_score_level: the monotonicity conjunct applied at
the concrete pair 20 ≤ 60, and the Example-3 conjuncts. -/
theorem C3_risk_score_level_witness :
    levelRank (riskLevel 20) ≤ levelRank (riskLevel 60) ∧
      riskScore cxExample3 = 80 :=
  ⟨C3_risk_score_level.2.1 20 60 (by norm_num), C3_risk_score_level.2.2.2.2.1⟩

/-! ## Claim C9 -/

/-- Claim C9: the returned results list of `predict_complex_risk` is the
top-20 slice of the full list sorted descending by risk score (hence has
at most 20 entries and is itself descending), while `total_analyzed` and
`high_risk_count` are computed over the full untruncated set. -/
theorem C9_risk_report_truncation (complexes : List ComplexRec) :
    (predictComplexRisk complexes).results =
      (sortDesc (fun r => (r.risk_score : ℚ)) (complexes.map assessOne)).take 20 ∧
    (predictComplexRisk complexes).results.length ≤ 20 ∧
    SortedDescBy (fun r => (r.risk_score : ℚ)) (predictComplexRisk complexes).results ∧
    (predictComplexRisk complexes).total_analyzed = complexes.length ∧
    (predictComplexRisk complexes).high_risk_count =
      ((complexes.map assessOne).filter (fun r => r.risk_level = "높음")).length := by
  refine ⟨rfl, ?_, ?_, ?_, ?_⟩
  · show ((sortDesc (fun r : RiskEntry => (r.risk_score : ℚ))
        (complexes.map assessOne)).take 20).length ≤ 20
    exact List.length_take_le _ _
  · show List.Pairwise _ ((sortDesc (fun r : RiskEntry => (r.risk_score : ℚ))
        (complexes.map assessOne)).take 20)
    exact List.Pairwise.sublist (List.take_sublist _ _)
      (sortDesc_sorted (fun r : RiskEntry => (r.risk_score : ℚ)) (complexes.map assessOne))
  · simp [predictComplexRisk, length_sortDesc]
  · show ((sortDesc (fun r : RiskEntry => (r.risk_score : ℚ)) (complexes.map assessOne)).filter
        (fun r => r.risk_level = "높음")).length = _
    rw [← List.countP_eq_length_filter, ← List.countP_eq_length_filter]
    exact (sortDesc_perm (fun r : RiskEntry => (r.risk_score : ℚ))
      (complexes.map assessOne)).countP_eq _

/-! ## Ranking lemmas shared by the compare_regions claims -/

/-- Example regions: A and B tie on health 80, C trails at 60; the other
metrics are equal everywhere so every per-metric ranking exercises the
stable tie-break. -/
def regA : RegionRec :=
  { region_code := "11010", name := "A구", health_score := 80
  , company_count := 100, employee_count := 1000, growth_rate := 1 }

def regB : RegionRec :=
  { region_code := "11020", name := "B구", health_score := 80
  , company_count := 100, employee_count := 1000, growth_rate := 1 }

def regC : RegionRec :=
  { region_code := "41110", name := "C구", health_score := 60
  , company_count := 100, employee_count := 1000, growth_rate := 1 }

theorem comparisonOf_map_region (results : List RegionRec) :
    (comparisonOf results).map (fun r => r.region) =
      (healthSorted results).map Prod.snd := by
  unfold comparisonOf
  rw [List.map_map]
  calc (healthSorted results).enum.map
        ((fun r : RankedRegion => r.region) ∘ _)
      = ((healthSorted results).enum.map Prod.snd).map Prod.snd := by
        rw [List.map_map]; rfl
    _ = (healthSorted results).map Prod.snd := by rw [List.enum_map_snd]

/-- In a list of indexed pairs with distinct indices, looking up the index
of the `j`-th element by `findIdx` returns `j`. -/
theorem findIdx_fst_get (l : List (ℕ × α)) (hnd : (l.map Prod.fst).Nodup)
    (j : ℕ) (hj : j < l.length) :
    l.findIdx (fun p => p.1 == (l.get ⟨j, hj⟩).1) = j := by
  induction l generalizing j with
  | nil => simp at hj
  | cons p t ih =>
    rw [List.map_cons, List.nodup_cons] at hnd
    match j with
    | 0 => simp [List.findIdx_cons]
    | j + 1 =>
      have hj' : j < t.length := by simpa using hj
      have hget : ((p :: t).get ⟨j + 1, hj⟩) = t.get ⟨j, hj'⟩ := rfl
      rw [hget]
      have hmem : (t.get ⟨j, hj'⟩).1 ∈ t.map Prod.fst :=
        List.mem_map_of_mem Prod.fst (t.get_mem j hj')
      have hne : (p.1 == (t.get ⟨j, hj'⟩).1) = false := by
        rw [beq_eq_false_iff_ne]
        intro hcon
        exact hnd.1 (hcon ▸ hmem)
      rw [List.findIdx_cons, hne]
      simp only [cond_false]
      rw [ih hnd.2 j hj']

theorem healthSorted_fst_nodup (results : List RegionRec) :
    ((healthSorted results).map Prod.fst).Nodup := by
  have hperm : (healthSorted results).Perm results.enum :=
    sortDesc_perm _ _
  have := (hperm.map Prod.fst).nodup_iff
  rw [this, List.enum_map_fst]
  exact List.nodup_range _

/-! ## Claim C10 -/

/-- Claim C10: in the output of `compare_regions`, the primary
`health_rank` and the per-metric `health_score_rank` always agree — both
come from the same stable descending sort by `health_score` over the same
record list. -/
theorem C10_health_rank_agreement (results : List RegionRec) :
    ∀ rr ∈ comparisonOf results, rr.health_rank = rr.health_score_rank := by
  intro rr hrr
  unfold comparisonOf at hrr
  rw [List.mem_map] at hrr
  obtain ⟨q, hq, rfl⟩ := hrr
  rw [List.mem_iff_get] at hq
  obtain ⟨⟨j, hj⟩, hget⟩ := hq
  have hjlen : j < (healthSorted results).length := by simpa using hj
  have henum : (healthSorted results).enum.get ⟨j, hj⟩ =
      (j, (healthSorted results).get ⟨j, hjlen⟩) := by
    simp [List.getElem_enum]
  rw [henum] at hget
  subst hget
  show j + 1 = metricRank "health_score" results _
  unfold metricRank
  have hkeys : (fun p : ℕ × RegionRec => metricKey "health_score" p.2) =
      (fun p : ℕ × RegionRec => p.2.health_score) := by
    funext p; simp [metricKey]
  rw [hkeys]
  have hfi := findIdx_fst_get (healthSorted results) (healthSorted_fst_nodup results) j hjlen
  rw [show sortDesc (fun p : ℕ × RegionRec => p.2.health_score) results.enum =
      healthSorted results from rfl]
  simp only [show ((j, (healthSorted results).get ⟨j, hjlen⟩) : ℕ × (ℕ × RegionRec)).2 =
      (healthSorted results).get ⟨j, hjlen⟩ from rfl]
  omega

/-- Witness for C10_health_rank_agreement: the single-region comparison,
whose one output row carries rank 1 in both fields. -/
theorem C10_health_rank_agreement_witness :
    ({ region := regC, health_rank := 1, health_score_rank := 1
     , company_count_rank := 1, employee_count_rank := 1
     , growth_rate_rank := 1 } : RankedRegion).health_rank =
    ({ region := regC, health_rank := 1, health_score_rank := 1
     , company_count_rank := 1, employee_count_rank := 1
     , growth_rate_rank := 1 } : RankedRegion).health_score_rank :=
  C10_health_rank_agreement [regC] _ (by decide)

/-! ## Claim C5 -/

/-- Claim C5: the ranking of `compare_regions` is stable — records with
equal health scores appear in the output in input order (filter form:
for every value `v`, the output restricted to score `v` equals the input
restricted to score `v`), ranks 1..N are assigned in output order, and
the A(80), B(80), C(60) example yields ranks A:1, B:2, C:3. -/
theorem C5_ranking_stable :
    (∀ (results : List RegionRec) (v : ℚ),
      ((comparisonOf results).map (fun r => r.region)).filter
          (fun r => decide (r.health_score = v)) =
        results.filter (fun r => decide (r.health_score = v))) ∧
    (∀ results : List RegionRec,
      (comparisonOf results).map (fun r => r.health_rank) =
        List.range' 1 results.length) ∧
    compareRegions [some regA, some regB, some regC] =
      CompareOut.ok
        [ { region := regA, health_rank := 1, health_score_rank := 1
          , company_count_rank := 1, employee_count_rank := 1, growth_rate_rank := 1 }
        , { region := regB, health_rank := 2, health_score_rank := 2
          , company_count_rank := 2, employee_count_rank := 2, growth_rate_rank := 2 }
        , { region := regC, health_rank := 3, health_score_rank := 3
          , company_count_rank := 3, employee_count_rank := 3, growth_rate_rank := 3 } ]
        3 "A구" := by
  refine ⟨fun results v => ?_, fun results => ?_, by decide⟩
  · rw [comparisonOf_map_region]
    have h1 := List.filter_map (f := (Prod.snd : ℕ × RegionRec → RegionRec))
      (p := fun r => decide (r.health_score = v)) (l := healthSorted results)
    rw [h1]
    have h2 := sortDesc_filter_stable (fun p : ℕ × RegionRec => p.2.health_score)
      results.enum v
    rw [show (fun r => decide (r.health_score = v)) ∘ (Prod.snd : ℕ × RegionRec → RegionRec)
        = fun p : ℕ × RegionRec => decide (p.2.health_score = v) from rfl]
    rw [show healthSorted results =
        sortDesc (fun p : ℕ × RegionRec => p.2.health_score) results.enum from rfl]
    rw [h2]
    rw [show (fun a : ℕ × RegionRec => decide (a.2.health_score = v)) =
        ((fun r : RegionRec => decide (r.health_score = v)) ∘ Prod.snd) from rfl]
    rw [← List.filter_map (f := (Prod.snd : ℕ × RegionRec → RegionRec))
      (p := fun r => decide (r.health_score = v)) (l := results.enum)]
    rw [List.enum_map_snd]
  · unfold comparisonOf
    rw [List.map_map]
    have h1 : ((fun r : RankedRegion => r.health_rank) ∘
        (fun q : ℕ × (ℕ × RegionRec) =>
          ({ region := q.2.2
           , health_rank := q.1 + 1
           , health_score_rank := metricRank "health_score" results q.2.1
           , company_count_rank := metricRank "company_count" results q.2.1
           , employee_count_rank := metricRank "employee_count" results q.2.1
           , growth_rate_rank := metricRank "growth_rate" results q.2.1 } : RankedRegion)))
        = fun q : ℕ × (ℕ × RegionRec) => q.1 + 1 := rfl
    rw [h1]
    have h2 : (fun q : ℕ × (ℕ × RegionRec) => q.1 + 1) =
        (fun n : ℕ => n + 1) ∘ Prod.fst := rfl
    rw [h2, ← List.map_map, List.enum_map_fst]
    have h3 : (healthSorted results).length = results.length := by
      have := (sortDesc_perm (fun p : ℕ × RegionRec => p.2.health_score)
        results.enum).length_eq
      simpa [healthSorted] using this
    rw [h3, List.range'_eq_map_range]
    exact List.map_congr_left (fun n _ => Nat.add_comm 1 n ▸ rfl)

/-! ## Claim C7 -/

/-- Claim C7: within the 5-code cap, `compare_regions` drops failed
fetches and still evaluates the rest — the empty-result error is returned
exactly when no fetch succeeded, and otherwise the output ranks exactly
the successfully fetched records (count included). -/
theorem C7_compare_drops_failures (fetches : List (Option RegionRec))
    (hlen : fetches.length ≤ 5) :
    (compareRegions fetches = CompareOut.error "유효한 지역을 찾을 수 없습니다" ↔
      fetches.filterMap id = []) ∧
    (fetches.filterMap id ≠ [] →
      ∃ c b, compareRegions fetches =
          CompareOut.ok c (fetches.filterMap id).length b ∧
        (c.map (fun r => r.region)).Perm (fetches.filterMap id)) := by
  have hcap : ¬ 5 < fetches.length := Nat.not_lt.mpr hlen
  constructor
  · constructor
    · intro herr
      by_contra hne
      rw [compareRegions, if_neg hcap] at herr
      simp only [if_neg hne] at herr
      exact CompareOut.noConfusion herr
    · intro hnil
      rw [compareRegions, if_neg hcap]
      simp [hnil]
  · intro hne
    refine ⟨comparisonOf (fetches.filterMap id),
      (match comparisonOf (fetches.filterMap id) with
       | [] => ""
       | r :: _ => r.region.name), ?_, ?_⟩
    · rw [compareRegions, if_neg hcap]
      simp only [if_neg hne]
      congr 1
      have hcomp : (comparisonOf (fetches.filterMap id)).length =
          (fetches.filterMap id).length := by
        unfold comparisonOf
        rw [List.length_map, List.enum_length]
        have := (sortDesc_perm (fun p : ℕ × RegionRec => p.2.health_score)
          (fetches.filterMap id).enum).length_eq
        simpa [healthSorted] using this
      rw [hcomp]
    · rw [comparisonOf_map_region]
      have hp : (healthSorted (fetches.filterMap id)).Perm (fetches.filterMap id).enum :=
        sortDesc_perm _ _
      have := hp.map (Prod.snd : ℕ × RegionRec → RegionRec)
      rwa [List.enum_map_snd] at this

/-- Witness for C7_compare_drops_failures: a three-code request where the
middle fetch fails — the other two codes are still ranked. -/
theorem C7_compare_drops_failures_witness :
    (compareRegions [some regA, none, some regC] =
        CompareOut.error "유효한 지역을 찾을 수 없습니다" ↔
      List.filterMap id [some regA, none, some regC] = []) ∧
    (List.filterMap id [some regA, none, some regC] ≠ [] →
      ∃ c b, compareRegions [some regA, none, some regC] =
          CompareOut.ok c (List.filterMap id [some regA, none, some regC]).length b ∧
        (c.map (fun r => r.region)).Perm
          (List.filterMap id [some regA, none, some regC])) :=
  C7_compare_drops_failures [some regA, none, some regC] (by norm_num)

/-! ## Substring lemmas for the Cluster Matcher claims -/

/-- The keyword occurs contiguously in a name (what Python `in` decides). -/
def ContainsKw (kw s : String) : Prop :=
  ∃ s1 s2, s.toList = s1 ++ kw.toList ++ s2

theorem prefMatch_iff (n h : List Char) :
    prefMatch n h = true ↔ ∃ rest, h = n ++ rest := by
  induction n generalizing h with
  | nil => simp [prefMatch]
  | cons a as ih =>
    cases h with
    | nil =>
      simp [prefMatch]
    | cons b bs =>
      simp only [prefMatch, Bool.and_eq_true, beq_iff_eq, ih]
      constructor
      · rintro ⟨rfl, rest, rfl⟩
        exact ⟨rest, rfl⟩
      · rintro ⟨rest, hr⟩
        rw [List.cons_append] at hr
        injection hr with h1 h2
        exact ⟨h1.symm, rest, h2⟩

theorem subOccurs_iff (n h : List Char) :
    subOccurs n h = true ↔ ∃ pre post, h = pre ++ n ++ post := by
  induction h with
  | nil =>
    rw [subOccurs, prefMatch_iff]
    constructor
    · rintro ⟨rest, hr⟩
      rcases List.append_eq_nil.mp hr.symm with ⟨hn, hrest⟩
      exact ⟨[], [], by simp [hn]⟩
    · rintro ⟨pre, post, hp⟩
      rcases List.append_eq_nil.mp hp.symm with ⟨hpn, hpost⟩
      rcases List.append_eq_nil.mp hpn with ⟨hpre, hn⟩
      exact ⟨[], by simp [hn]⟩
  | cons c t ih =>
    rw [subOccurs, Bool.or_eq_true, prefMatch_iff, ih]
    constructor
    · rintro (⟨rest, hr⟩ | ⟨pre, post, hp⟩)
      · exact ⟨[], rest, by simpa using hr⟩
      · exact ⟨c :: pre, post, by simp [hp]⟩
    · rintro ⟨pre, post, hp⟩
      cases pre with
      | nil => exact Or.inl ⟨post, by simpa using hp⟩
      | cons p ps =>
        rw [List.cons_append, List.cons_append] at hp
        injection hp with h1 h2
        exact Or.inr ⟨ps, post, h2⟩

theorem strHasSub_iff (s kw : String) :
    strHasSub s kw = true ↔ ContainsKw kw s :=
  subOccurs_iff kw.toList s.toList

/-- The region of spec Example 5: the first matching industry has count 8,
a later matching industry has count 12. -/
def exRegion5 : ClusterRegion :=
  { code := "99999", name := "R시", province := "P도"
  , top_industries := [ { name := "반도체부품", count := 8 }
                      , { name := "반도체", count := 12 } ]
  , employee_count := 500, health_score := 70 }

theorem firstMatch_some_spec (kw : String) (inds : List Industry) (m : Industry)
    (h : firstMatch kw inds = some m) :
    ∃ pre post, inds = pre ++ m :: post ∧ ContainsKw kw m.name ∧
      ∀ p ∈ pre, ¬ ContainsKw kw p.name := by
  induction inds with
  | nil => simp [firstMatch] at h
  | cons ind rest ih =>
    rw [firstMatch] at h
    split at h
    · rename_i hc
      injection h with hm
      subst hm
      exact ⟨[], rest, rfl, (strHasSub_iff _ _).mp hc, by simp⟩
    · rename_i hc
      obtain ⟨pre, post, h1, h2, h3⟩ := ih h
      refine ⟨ind :: pre, post, by simp [h1], h2, ?_⟩
      intro p hp
      rcases List.mem_cons.mp hp with rfl | hpre
      · intro hck
        exact hc ((strHasSub_iff _ _).mpr hck)
      · exact h3 p hpre

theorem firstMatch_none_spec (kw : String) (inds : List Industry)
    (h : firstMatch kw inds = none) :
    ∀ p ∈ inds, ¬ ContainsKw kw p.name := by
  induction inds with
  | nil => simp
  | cons ind rest ih =>
    rw [firstMatch] at h
    split at h
    · exact absurd h (by simp)
    · rename_i hc
      intro p hp
      rcases List.mem_cons.mp hp with rfl | hpre
      · intro hck
        exact hc ((strHasSub_iff _ _).mpr hck)
      · exact ih h p hpre

/-! ## Claim C4 -/

/-- Claim C4: per region the matcher takes the first `top_industries`
entry whose name contains the keyword as a substring (everything before
it does not match), contributes at most one entry per region, retains it
only when its count meets `min_companies` — and on the Example-5 region
(first match "반도체부품" count 8, later "반도체" count 12) the first hit
is taken and rejected for count < 10 even though a better later match
exists. -/
theorem C4_first_hit_per_region (kw : String) (minc : ℤ) (r : ClusterRegion) :
    ((clustersOf kw minc [r]).length ≤ 1) ∧
    (∀ m, firstMatch kw r.top_industries = some m →
      ∃ pre post, r.top_industries = pre ++ m :: post ∧ ContainsKw kw m.name ∧
        ∀ p ∈ pre, ¬ ContainsKw kw p.name) ∧
    (firstMatch kw r.top_industries = none →
      ∀ p ∈ r.top_industries, ¬ ContainsKw kw p.name) ∧
    (clustersOf kw minc [r] ≠ [] ↔
      ∃ m, firstMatch kw r.top_industries = some m ∧ minc ≤ m.count) ∧
    clustersOf "반도체" 10 [exRegion5] = [] ∧
    firstMatch "반도체" exRegion5.top_industries =
      some { name := "반도체부품", count := 8 } := by
  refine ⟨?_, fun m h => firstMatch_some_spec kw _ m h,
    fun h => firstMatch_none_spec kw _ h, ?_, by decide, by decide⟩
  · show (List.filterMap _ [r]).length ≤ 1
    rw [List.filterMap_cons]
    split
    · simp
    · simp [List.filterMap_nil]
  · show (List.filterMap _ [r]) ≠ [] ↔ _
    rw [List.filterMap_cons]
    cases hf : firstMatch kw r.top_industries with
    | none =>
      simp only [hf, List.filterMap_nil]
      constructor
      · intro hcon; exact absurd rfl hcon
      · rintro ⟨m, hm, _⟩; exact absurd hm (by simp)
    | some m =>
      simp only [hf]
      by_cases hc : minc ≤ m.count
      · simp only [if_pos hc, List.filterMap_nil]
        constructor
        · intro _; exact ⟨m, rfl, hc⟩
        · intro _; simp
      · simp only [if_neg hc, List.filterMap_nil]
        constructor
        · intro hcon; exact absurd rfl hcon
        · rintro ⟨m', hm', hc'⟩
          injection hm' with hmm
          exact absurd (hmm ▸ hc') hc

/-- Witness for C4_first_hit_per_region at the Example-5 inputs. -/
theorem C4_first_hit_per_region_witness :
    (clustersOf "반도체" 10 [exRegion5]).length ≤ 1 ∧
      clustersOf "반도체" 10 [exRegion5] = [] :=
  ⟨(C4_first_hit_per_region "반도체" 10 exRegion5).1,
   (C4_first_hit_per_region "반도체" 10 exRegion5).2.2.2.2.1⟩

/-! ## Claim C6 -/

/-- Three regions that all match the keyword "semi" above the threshold. -/
def rS1 : ClusterRegion :=
  { code := "10001", name := "S1", province := "P도"
  , top_industries := [ { name := "semi parts", count := 20 } ]
  , employee_count := 100, health_score := 50 }

def rS2 : ClusterRegion :=
  { code := "10002", name := "S2", province := "P도"
  , top_industries := [ { name := "semi kits", count := 20 } ]
  , employee_count := 100, health_score := 50 }

def rS3 : ClusterRegion :=
  { code := "10003", name := "S3", province := "P도"
  , top_industries := [ { name := "semi tools", count := 20 } ]
  , employee_count := 100, health_score := 50 }

/-- Claim C6, counterexample: the claim quantifies over every input, but
`top_n` is a plain int and the slice `clusters[:top_n]` follows Python
slice semantics — at `top_n = -1` with three matches the returned list
has 2 entries, which is more than `top_n`. -/
theorem C6_negative_top_n_counterexample :
    (findIndustryCluster "semi" 10 (-1) [rS1, rS2, rS3]).top_clusters.length = 2 ∧
    ¬ (((findIndustryCluster "semi" 10 (-1)
        [rS1, rS2, rS3]).top_clusters.length : ℤ) ≤ -1) := by
  refine ⟨?_, by decide⟩
  decide

/-- Claim C6 (amended): for every input with `top_n ≥ 0` the returned top
list has at most `top_n` entries, and for every input — negative `top_n`
included — `total_clusters` is at least the length of the returned list. -/
theorem C6_truncation_bound (industry : String) (minc top_n : ℤ)
    (regions : List ClusterRegion) :
    (0 ≤ top_n →
      (((findIndustryCluster industry minc top_n regions).top_clusters.length : ℤ)
        ≤ top_n)) ∧
    (findIndustryCluster industry minc top_n regions).top_clusters.length ≤
      (findIndustryCluster industry minc top_n regions).total_clusters := by
  constructor
  · intro hn
    show ((pySlice top_n _).length : ℤ) ≤ top_n
    rw [pySlice, if_pos hn]
    calc ((List.take top_n.toNat _).length : ℤ)
        ≤ (top_n.toNat : ℤ) := by exact_mod_cast List.length_take_le _ _
      _ = top_n := Int.toNat_of_nonneg hn
  · show (pySlice top_n _).length ≤ _
    rw [pySlice]
    split <;>
      calc (List.take _ _).length ≤ _ := (List.length_take _ _) ▸ min_le_right _ _

/-- Witness for C6_truncation_bound at `top_n = 2` over the three matching
regions. -/
theorem C6_truncation_bound_witness :
    (((findIndustryCluster "semi" 10 2 [rS1, rS2, rS3]).top_clusters.length : ℤ) ≤ 2) ∧
    (findIndustryCluster "semi" 10 2 [rS1, rS2, rS3]).top_clusters.length ≤
      (findIndustryCluster "semi" 10 2 [rS1, rS2, rS3]).total_clusters :=
  ⟨(C6_truncation_bound "semi" 10 2 [rS1, rS2, rS3]).1 (by norm_num),
   (C6_truncation_bound "semi" 10 2 [rS1, rS2, rS3]).2⟩

/-! ## Claim C8 -/

/-- The not-found message is longer than the validation message, so the
two error payloads can never coincide. -/
theorem notFoundMsg_ne_valMsg (clean : String) :
    ("사업자등록번호 " ++ clean ++ "에 해당하는 기업을 찾을 수 없습니다" : String) ≠
      "사업자등록번호는 10자리여야 합니다" := by
  intro hcon
  have hlen := congrArg String.length hcon
  rw [String.length_append, String.length_append] at hlen
  have h1 : ("사업자등록번호 " : String).length = 8 := by decide
  have h2 : ("에 해당하는 기업을 찾을 수 없습니다" : String).length = 20 := by decide
  have h3 : ("사업자등록번호는 10자리여야 합니다" : String).length = 19 := by decide
  omega

/-- Claim C8: `get_company_360` returns the validation error exactly when
the key, after stripping separators, is not 10 characters long; for an
invalid key the result does not depend on the fetch at all (the check
precedes any fetch); "123-456-7890" normalizes to "1234567890" and
passes, "12345" fails. -/
theorem C8_biz_key_validation :
    (∀ (biz : String) (fetch : String → Option CompanyRec),
      getCompany360 biz fetch = C360Out.error "사업자등록번호는 10자리여야 합니다" ↔
        (cleanBizNo biz).length ≠ 10) ∧
    (∀ (biz : String) (f g : String → Option CompanyRec),
      (cleanBizNo biz).length ≠ 10 → getCompany360 biz f = getCompany360 biz g) ∧
    cleanBizNo "123-456-7890" = "1234567890" ∧
    (cleanBizNo "123-456-7890").length = 10 ∧
    (∀ fetch : String → Option CompanyRec,
      getCompany360 "12345" fetch =
        C360Out.error "사업자등록번호는 10자리여야 합니다") := by
  refine ⟨fun biz fetch => ?_, fun biz f g h => ?_, by decide, by decide,
    fun fetch => ?_⟩
  · rw [getCompany360]
    by_cases hv : (cleanBizNo biz).length ≠ 10
    · rw [if_pos hv]
      simp [hv]
    · rw [if_neg hv]
      constructor
      · intro h
        cases hf : fetch (cleanBizNo biz) with
        | none =>
          rw [hf] at h
          exact absurd (C360Out.error.inj h) (notFoundMsg_ne_valMsg _)
        | some c =>
          rw [hf] at h
          exact C360Out.noConfusion h
      · intro h
        exact absurd h hv
  · rw [getCompany360, getCompany360, if_pos h, if_pos h]
  · rw [getCompany360, if_pos (by decide)]

/-- Witness for C8_biz_key_validation: the short key "12345" is rejected
with the validation error regardless of the fetch. -/
theorem C8_biz_key_validation_witness :
    getCompany360 "12345" (fun _ => none) =
      C360Out.error "사업자등록번호는 10자리여야 합니다" :=
  C8_biz_key_validation.2.2.2.2 (fun _ => none)

end KIEP
